import Mathlib

/-!
Verification of the device-binding authentication core of
`flask-client-auth` (`server.py`).

The SQLite `users` table is modelled as a list of account records in
row order; `username` carries a UNIQUE constraint in the schema, which
appears here as the `usernamesNodup` hypothesis.  Passwords reach
`login` already hashed (the `index` view hashes them with `hashpw`
before the call), so `login` compares the stored hash with the supplied
one directly, exactly as the SQL query does; the bcrypt `hashpw`
function itself is an abstract parameter.
-/

namespace Server

/-- One row of the `users` table: `username TEXT UNIQUE NOT NULL`,
`password TEXT NOT NULL` (a bcrypt hash), `machine_id TEXT NULLABLE`. -/
structure Account where
  username : String
  password : String
  machineId : Option String
deriving Repr, DecidableEq

/-- The `users` table, in row order. -/
abbrev Store := List Account

/-- Default row used with `List.getD`. -/
def blankAccount : Account := ⟨"", "", none⟩

/-- `SELECT machine_id FROM users WHERE username = ? AND password = ?`
followed by `fetchone`: the first row matching both columns. -/
def findByCredentials (s : Store) (username password : String) : Option Account :=
  s.find? (fun a => a.username == username && a.password == password)

/-- `SELECT username FROM users WHERE machine_id = ?` followed by
`fetchone`.  A row whose `machine_id` is NULL never matches `=`. -/
def findUsernameByDevice (s : Store) (machineId : String) : Option Account :=
  s.find? (fun a => a.machineId == some machineId)

/-- `UPDATE users SET machine_id = ? WHERE username = ? AND password = ?`:
every row matching both columns gets the new machine id. -/
def bindDevice (s : Store) (username password machineId : String) : Store :=
  s.map (fun a =>
    if a.username == username && a.password == password then
      { a with machineId := some machineId }
    else a)

/-- `login` from `server.py`: look the user up by (username, password
hash); reject when absent; when the stored machine id is NULL, reject
if the supplied machine id belongs to any row, otherwise bind it and
accept; when the stored machine id is set, accept iff it equals the
supplied one.  Returns the decision together with the store after the
call. -/
def login (s : Store) (username password machineId : String) : Bool × Store :=
  match findByCredentials s username password with
  | none => (false, s)
  | some row =>
    match row.machineId with
    | none =>
      match findUsernameByDevice s machineId with
      | some _ => (false, s)
      | none => (true, bindDevice s username password machineId)
    | some m => (m == machineId, s)

/-- The authorization path of the `index` view once the three header
fields are present: hash the password, call `login`, and map the
decision onto `("OK", 200)` or `("Unauthorized", 401)`. -/
def index (s : Store) (hashpw : String → String)
    (username password machineId : String) : (String × Nat) × Store :=
  let r := login s username (hashpw password) machineId
  if r.1 then (("OK", 200), r.2) else (("Unauthorized", 401), r.2)

/-- `add_user`: `INSERT INTO users (username, password) VALUES (?, ?)`.
The UNIQUE constraint on `username` makes the insert raise an
`IntegrityError` when the username already exists; otherwise the new
row is appended with a NULL machine id. -/
def add_user (s : Store) (hashpw : String → String)
    (username password : String) : Except String Store :=
  if s.any (fun a => a.username == username) then
    Except.error "UNIQUE constraint failed: users.username"
  else
    Except.ok (s ++ [⟨username, hashpw password, none⟩])

/-- `update_password`: `UPDATE users SET password = ? WHERE username = ?`.
A plain SQL UPDATE: rows matching the username get the new hash, and
matching zero rows is still a success. -/
def update_password (s : Store) (hashpw : String → String)
    (username newPassword : String) : Except String Store :=
  Except.ok (s.map (fun a =>
    if a.username == username then { a with password := hashpw newPassword }
    else a))

/-- `delete_user`: `DELETE FROM users WHERE username = ?`.  A plain SQL
DELETE: matching zero rows is still a success. -/
def delete_user (s : Store) (username : String) : Except String Store :=
  Except.ok (s.filter (fun a => a.username != username))

/-- The UNIQUE constraint on the `username` column. -/
def usernamesNodup (s : Store) : Prop :=
  (s.map Account.username).Nodup

/-- At most one row holds any given non-null machine id. -/
def deviceUnique (s : Store) : Prop :=
  ∀ d : String, s.countP (fun a => a.machineId == some d) ≤ 1

/-! ### Helper lemmas about the store primitives -/

theorem username_inj {s : Store} (hn : usernamesNodup s) {a b : Account}
    (ha : a ∈ s) (hb : b ∈ s) (h : a.username = b.username) : a = b :=
  List.inj_on_of_nodup_map hn ha hb h

theorem findByCredentials_some {s : Store} {u p : String} {r : Account}
    (h : findByCredentials s u p = some r) :
    r ∈ s ∧ r.username = u ∧ r.password = p := by
  refine ⟨List.mem_of_find?_eq_some h, ?_⟩
  have := List.find?_some h
  simpa [Bool.and_eq_true, beq_iff_eq] using this

theorem findByCredentials_of_mem {s : Store} (hn : usernamesNodup s) {a : Account}
    (ha : a ∈ s) : findByCredentials s a.username a.password = some a := by
  have hsome : (s.find? (fun b => b.username == a.username && b.password == a.password)).isSome := by
    rw [List.find?_isSome]
    exact ⟨a, ha, by simp⟩
  obtain ⟨r, hr⟩ := Option.isSome_iff_exists.1 hsome
  obtain ⟨hrm, hru, _⟩ := findByCredentials_some hr
  rwa [username_inj hn hrm ha hru] at hr

theorem findUsernameByDevice_none {s : Store} {d : String} :
    findUsernameByDevice s d = none ↔ ∀ a ∈ s, a.machineId ≠ some d := by
  rw [findUsernameByDevice, List.find?_eq_none]
  simp

theorem mem_bindDevice {s : Store} {u p d : String} {b : Account}
    (hb : b ∈ bindDevice s u p d) :
    ∃ a ∈ s, b = if a.username == u && a.password == p then
      { a with machineId := some d } else a := by
  obtain ⟨a, ha, hab⟩ := List.mem_map.1 hb
  exact ⟨a, ha, hab.symm⟩

/-! ### Claims -/

/-- C1: for every store, every account with an unset machine id, and
every supplied device id bound to no other account, login with that
account's username and correct password hash accepts, and afterwards
the account's machine id equals the supplied device id. -/
theorem login_first_use_binds (s : Store) (u p d : String) (a : Account)
    (hn : usernamesNodup s) (ha : a ∈ s) (hu : a.username = u)
    (hp : a.password = p) (hm : a.machineId = none)
    (hd : ∀ b ∈ s, b ≠ a → b.machineId ≠ some d) :
    (login s u p d).1 = true ∧
    (∃ b ∈ (login s u p d).2, b.username = u ∧ b.machineId = some d) ∧
    ∀ b ∈ (login s u p d).2, b.username = u → b.machineId = some d := by
  have hd' : ∀ b ∈ s, b.machineId ≠ some d := by
    intro b hbm
    by_cases hba : b = a
    · subst hba; simp [hm]
    · exact hd b hbm hba
  have hf : findByCredentials s u p = some a := by
    rw [← hu, ← hp]; exact findByCredentials_of_mem hn ha
  have hdev : findUsernameByDevice s d = none := findUsernameByDevice_none.2 hd'
  have hrun : login s u p d = (true, bindDevice s u p d) := by
    simp [login, hf, hm, hdev]
  rw [hrun]
  refine ⟨rfl, ?_, ?_⟩
  · refine ⟨{ a with machineId := some d }, ?_, hu, rfl⟩
    have : ({ a with machineId := some d } : Account) =
        (if a.username == u && a.password == p then
          { a with machineId := some d } else a) := by
      simp [hu, hp]
    rw [bindDevice]
    exact this ▸ List.mem_map_of_mem _ ha
  · intro b hb hbu
    obtain ⟨a', ha', hba⟩ := mem_bindDevice hb
    by_cases hc : a'.username == u && a'.password == p
    · rw [hba, if_pos hc]
    · rw [hba, if_neg hc] at hbu ⊢
      have : a' = a := username_inj hn ha' ha (by rw [hbu, ← hu])
      subst this
      exact absurd (by simp [hu, hp]) hc

/-- C2: for every store and every account whose machine id is set to
`D`, login with that account's username and correct password hash and
supplied device id `d` accepts iff `d = D`, and leaves the store
unchanged. -/
theorem login_bound_is_comparison (s : Store) (u p d D : String) (a : Account)
    (hn : usernamesNodup s) (ha : a ∈ s) (hu : a.username = u)
    (hp : a.password = p) (hm : a.machineId = some D) :
    ((login s u p d).1 = true ↔ d = D) ∧ (login s u p d).2 = s := by
  have hf : findByCredentials s u p = some a := by
    rw [← hu, ← hp]; exact findByCredentials_of_mem hn ha
  have hrun : login s u p d = (D == d, s) := by
    simp only [login, hf, hm]
  rw [hrun]
  exact ⟨by rw [beq_iff_eq]; exact eq_comm, rfl⟩

/-- Pointwise-equal predicates on the members give equal counts. -/
theorem countP_congr_mem {α : Type} {p q : α → Bool} {l : List α}
    (h : ∀ a ∈ l, p a = q a) : l.countP p = l.countP q := by
  induction l with
  | nil => rfl
  | cons a t ih =>
    rw [List.countP_cons, List.countP_cons, h a (List.mem_cons_self a t),
      ih (fun b hb => h b (List.mem_cons_of_mem a hb))]

/-- The UNIQUE constraint bounds the number of rows holding any one
username by one. -/
theorem countP_username_le_one {s : Store} (hn : usernamesNodup s) (u : String) :
    s.countP (fun a => a.username == u) ≤ 1 := by
  induction s with
  | nil => simp
  | cons a t ih =>
    rw [usernamesNodup, List.map_cons, List.nodup_cons] at hn
    rw [List.countP_cons]
    by_cases hc : a.username = u
    · have hz : t.countP (fun a => a.username == u) = 0 := by
        rw [List.countP_eq_zero]
        intro b hb
        simp only [beq_iff_eq]
        intro hbu
        exact hn.1 (hc ▸ hbu ▸ List.mem_map_of_mem Account.username hb)
      simp [hz, hc]
    · have h2 := ih hn.2
      simpa [hc] using h2

/-- `bindDevice` keeps device uniqueness when the bound device is held
by no row: the rows it rewrites all carry the same username, so the
UNIQUE constraint caps them at one. -/
theorem bindDevice_deviceUnique {s : Store} {u p d : String}
    (hn : usernamesNodup s) (hdu : deviceUnique s)
    (key : ∀ b ∈ s, b.machineId ≠ some d) :
    deviceUnique (bindDevice s u p d) := by
  intro d'
  rw [bindDevice, List.countP_map]
  by_cases hdd : d' = d
  · rw [hdd]
    have hpt : s.countP ((fun a => a.machineId == some d) ∘ fun a =>
        if a.username == u && a.password == p then
          { a with machineId := some d } else a) =
        s.countP (fun a => a.username == u && a.password == p) := by
      refine countP_congr_mem (fun a haM => ?_)
      by_cases hc : (a.username == u && a.password == p) = true
      · simp only [Function.comp_apply]
        rw [if_pos hc, hc]
        simp
      · rw [Bool.not_eq_true] at hc
        simp only [Function.comp_apply, hc, Bool.false_eq_true, if_false]
        simpa using key a haM
    rw [hpt]
    refine le_trans (List.countP_mono_left (fun a _ hc => ?_))
      (countP_username_le_one hn u)
    exact (Bool.and_eq_true _ _ ▸ hc).1
  · refine le_trans (List.countP_mono_left (fun a haM hc => ?_)) (hdu d')
    simp only [Function.comp_apply] at hc
    by_cases hcc : (a.username == u && a.password == p) = true
    · rw [if_pos hcc] at hc
      simp only [beq_iff_eq, Option.some.injEq] at hc
      exact absurd hc.symm hdd
    · rwa [if_neg hcc] at hc

/-- `login` preserves device uniqueness: the only mutation binds a
device that no row holds. -/
theorem login_preserves_deviceUnique (s : Store) (u p d : String)
    (hn : usernamesNodup s) (hdu : deviceUnique s) :
    deviceUnique (login s u p d).2 := by
  cases hf : findByCredentials s u p with
  | none => simpa only [login, hf] using hdu
  | some row =>
    cases hm : row.machineId with
    | some m => simpa only [login, hf, hm] using hdu
    | none =>
      cases hdev : findUsernameByDevice s d with
      | some c => simpa only [login, hf, hm, hdev] using hdu
      | none =>
        have key : ∀ b ∈ s, b.machineId ≠ some d :=
          findUsernameByDevice_none.1 hdev
        simpa only [login, hf, hm, hdev] using
          bindDevice_deviceUnique hn hdu key

/-- `add_user` preserves device uniqueness: the new row has NULL
machine id. -/
theorem add_user_preserves_deviceUnique (s : Store) (hf : String → String)
    (u p : String) (s' : Store) (hdu : deviceUnique s)
    (h : add_user s hf u p = Except.ok s') : deviceUnique s' := by
  rw [add_user] at h
  split at h
  · cases h
  · cases h
    intro d
    rw [List.countP_append]
    have : List.countP (fun a => a.machineId == some d)
        [(⟨u, hf p, none⟩ : Account)] = 0 := rfl
    rw [this]
    simpa using hdu d

/-- `update_password` preserves device uniqueness: it never touches the
machine id column. -/
theorem update_password_preserves_deviceUnique (s : Store)
    (hf : String → String) (u np : String) (s' : Store) (hdu : deviceUnique s)
    (h : update_password s hf u np = Except.ok s') : deviceUnique s' := by
  rw [update_password] at h
  cases h
  intro d
  rw [List.countP_map]
  have : s.countP
      ((fun a => a.machineId == some d) ∘ fun a =>
        if a.username == u then { a with password := hf np } else a) =
      s.countP (fun a => a.machineId == some d) := by
    refine countP_congr_mem (fun a _ => ?_)
    by_cases hc : a.username == u <;> simp [Function.comp, hc]
  rw [this]
  exact hdu d

/-- `delete_user` preserves device uniqueness: deletion only removes
rows. -/
theorem delete_user_preserves_deviceUnique (s : Store) (u : String)
    (s' : Store) (hdu : deviceUnique s)
    (h : delete_user s u = Except.ok s') : deviceUnique s' := by
  rw [delete_user] at h
  cases h
  intro d
  exact le_trans ((List.filter_sublist s).countP_le _) (hdu d)

/-- C4: at most one account holds any given non-null device id; this
holds of the empty store and is preserved by login, add_user,
update_password and delete_user, for all arguments, on stores
respecting the schema's UNIQUE username constraint. -/
theorem deviceUnique_invariant :
    deviceUnique ([] : Store) ∧
    (∀ s u p d, usernamesNodup s → deviceUnique s →
      deviceUnique (login s u p d).2) ∧
    (∀ s hf u p s', deviceUnique s → add_user s hf u p = Except.ok s' →
      deviceUnique s') ∧
    (∀ s hf u np s', deviceUnique s → update_password s hf u np = Except.ok s' →
      deviceUnique s') ∧
    (∀ s u s', deviceUnique s → delete_user s u = Except.ok s' →
      deviceUnique s') :=
  ⟨fun d => by simp,
   fun s u p d hn hdu => login_preserves_deviceUnique s u p d hn hdu,
   fun s hf u p s' hdu h => add_user_preserves_deviceUnique s hf u p s' hdu h,
   fun s hf u np s' hdu h =>
     update_password_preserves_deviceUnique s hf u np s' hdu h,
   fun s u s' hdu h => delete_user_preserves_deviceUnique s u s' hdu h⟩

/-- C3: with account `a` bound to device `d` and account `b` unbound,
login with `b`'s username and correct password hash and supplied device
id `d` rejects and leaves the store unchanged. -/
theorem login_rejects_foreign_device (s : Store) (d : String) (a b : Account)
    (hn : usernamesNodup s) (hab : a ≠ b) (ha : a ∈ s) (hb : b ∈ s)
    (hma : a.machineId = some d) (hmb : b.machineId = none) :
    (login s b.username b.password d).1 = false ∧
    (login s b.username b.password d).2 = s := by
  have hf : findByCredentials s b.username b.password = some b :=
    findByCredentials_of_mem hn hb
  have hsome : (findUsernameByDevice s d).isSome := by
    rw [findUsernameByDevice, List.find?_isSome]
    exact ⟨a, ha, by simp [hma]⟩
  obtain ⟨c, hc⟩ := Option.isSome_iff_exists.1 hsome
  have hrun : login s b.username b.password d = (false, s) := by
    simp [login, hf, hmb, hc]
  rw [hrun]
  exact ⟨rfl, rfl⟩

/-- C5: once an account's machine id is set, no `login` call, for any
arguments, changes it: the row with that username still carries the
same machine id after the call. -/
theorem login_never_rebinds (s : Store) (u p d : String)
    (hn : usernamesNodup s) :
    ∀ a ∈ s, ∀ D, a.machineId = some D →
      ∀ b ∈ (login s u p d).2, b.username = a.username →
        b.machineId = some D := by
  intro a ha D hD b hb hbu
  have base : b ∈ s → b.machineId = some D := fun hb' => by
    rw [username_inj hn hb' ha hbu]; exact hD
  cases hf : findByCredentials s u p with
  | none => exact base (by simpa only [login, hf] using hb)
  | some row =>
    obtain ⟨hrmem, hru, hrp⟩ := findByCredentials_some hf
    cases hm : row.machineId with
    | some m => exact base (by simpa only [login, hf, hm] using hb)
    | none =>
      cases hdev : findUsernameByDevice s d with
      | some c => exact base (by simpa only [login, hf, hm, hdev] using hb)
      | none =>
        have hb' : b ∈ bindDevice s u p d := by
          simpa only [login, hf, hm, hdev] using hb
        obtain ⟨a', ha', hba⟩ := mem_bindDevice hb'
        by_cases hc : (a'.username == u && a'.password == p) = true
        · exfalso
          have hau : a'.username = u :=
            eq_of_beq (Bool.and_eq_true _ _ ▸ hc).1
          have hbu' : a'.username = a.username := by
            rw [← hbu, hba, if_pos hc]
          obtain rfl : a' = a := username_inj hn ha' ha hbu'
          obtain rfl : a' = row := username_inj hn ha' hrmem (by rw [hau, hru])
          rw [hm] at hD
          cases hD
        · have hbe : b = a' := by rw [hba, if_neg hc]
          exact base (by rw [hbe]; exact ha')

/-- C6: when no row matches the supplied username and password hash —
unknown username, wrong password, or both — the request is rejected
with the store unchanged, and the response for a nonexistent username
is identical to the response for an existing username with a wrong
password. -/
theorem index_reject_uniform (s : Store) (hf : String → String) :
    (∀ u p d, (∀ a ∈ s, ¬(a.username = u ∧ a.password = hf p)) →
        index s hf u p d = (("Unauthorized", 401), s)) ∧
    (∀ u p d u2 p2 d2, (∀ a ∈ s, a.username ≠ u) →
        (∀ a ∈ s, a.username = u2 → a.password ≠ hf p2) →
        (index s hf u p d).1 = (index s hf u2 p2 d2).1) := by
  have main : ∀ u p d, (∀ a ∈ s, ¬(a.username = u ∧ a.password = hf p)) →
      index s hf u p d = (("Unauthorized", 401), s) := by
    intro u p d hno
    have hfc : findByCredentials s u (hf p) = none := by
      rw [findByCredentials, List.find?_eq_none]
      intro a ha
      simpa using hno a ha
    simp [index, login, hfc]
  refine ⟨main, fun u p d u2 p2 d2 h1 h2 => ?_⟩
  rw [main u p d (fun a ha h => h1 a ha h.1),
    main u2 p2 d2 (fun a ha h => h2 a ha h.1 h.2)]

/-- C7: every rejected `login` call leaves the store unchanged — the
single UPDATE sits on the accepting path only. -/
theorem login_reject_leaves_store (s : Store) (u p d : String)
    (h : (login s u p d).1 = false) : (login s u p d).2 = s := by
  cases hf : findByCredentials s u p with
  | none => simp only [login, hf]
  | some row =>
    cases hm : row.machineId with
    | some m => simp only [login, hf, hm]
    | none =>
      cases hdev : findUsernameByDevice s d with
      | some c => simp only [login, hf, hm, hdev]
      | none => simp [login, hf, hm, hdev] at h

theorem map_eq_self_of_mem {α : Type} {f : α → α} {l : List α}
    (h : ∀ a ∈ l, f a = a) : l.map f = l := by
  induction l with
  | nil => rfl
  | cons a t ih =>
    rw [List.map_cons, h a (List.mem_cons_self a t),
      ih (fun b hb => h b (List.mem_cons_of_mem a hb))]

theorem filter_eq_self_of_mem {α : Type} {p : α → Bool} {l : List α}
    (h : ∀ a ∈ l, p a = true) : l.filter p = l := by
  induction l with
  | nil => rfl
  | cons a t ih =>
    rw [List.filter_cons, if_pos (h a (List.mem_cons_self a t)),
      ih (fun b hb => h b (List.mem_cons_of_mem a hb))]

/-- C9 counterexample: `update_password` and `delete_user` on a
username that does not exist succeed silently — the plain SQL UPDATE
and DELETE match zero rows and report no error — contradicting the
claim that such calls surface an error to the caller. -/
theorem provisioning_silent_noop :
    update_password [⟨"bob", "HB", none⟩] (fun _ => "HX") "alice" "x" =
      Except.ok [⟨"bob", "HB", none⟩] ∧
    delete_user [⟨"bob", "HB", none⟩] "alice" =
      Except.ok [⟨"bob", "HB", none⟩] := ⟨rfl, rfl⟩

/-- C9 amended: `add_user` with an existing username fails with the
UNIQUE-constraint error, while `update_password` and `delete_user` with
a nonexistent username succeed silently, leaving the store unchanged
and surfacing no error. -/
theorem provisioning_error_surface :
    (∀ s (hf : String → String) u p, (∃ a ∈ s, a.username = u) →
      add_user s hf u p =
        Except.error "UNIQUE constraint failed: users.username") ∧
    (∀ s (hf : String → String) u np, (∀ a ∈ s, a.username ≠ u) →
      update_password s hf u np = Except.ok s) ∧
    (∀ s u, (∀ a ∈ s, a.username ≠ u) → delete_user s u = Except.ok s) := by
  refine ⟨?_, ?_, ?_⟩
  · rintro s hf u p ⟨a, ha, hau⟩
    rw [add_user, if_pos]
    rw [List.any_eq_true]
    exact ⟨a, ha, by simp [hau]⟩
  · intro s hf u np h
    rw [update_password]
    congr 1
    refine map_eq_self_of_mem (fun a ha => ?_)
    rw [if_neg]
    simp [h a ha]
  · intro s u h
    rw [delete_user]
    congr 1
    refine filter_eq_self_of_mem (fun a ha => ?_)
    simp [h a ha]

/-- C10: `update_password` only rewrites the password column: row
count, every row's username and machine id, and every row whose
username differs from the argument are untouched. -/
theorem update_password_frame (s : Store) (hf : String → String)
    (u np : String) (s' : Store)
    (h : update_password s hf u np = Except.ok s') :
    s'.length = s.length ∧
    ∀ i : Nat,
      (s'.getD i blankAccount).username = (s.getD i blankAccount).username ∧
      (s'.getD i blankAccount).machineId = (s.getD i blankAccount).machineId ∧
      ((s.getD i blankAccount).username ≠ u →
        s'.getD i blankAccount = s.getD i blankAccount) := by
  rw [update_password] at h
  cases h
  refine ⟨List.length_map _ _, fun i => ?_⟩
  rw [List.getD_eq_getElem?_getD, List.getD_eq_getElem?_getD,
    List.getElem?_map]
  cases hx : s[i]? with
  | none => exact ⟨rfl, rfl, fun _ => rfl⟩
  | some a =>
    by_cases hc : (a.username == u) = true
    · refine ⟨?_, ?_, ?_⟩
      · simp only [Option.map_some', Option.getD_some, if_pos hc]
      · simp only [Option.map_some', Option.getD_some, if_pos hc]
      · intro hne
        exact absurd (eq_of_beq hc) hne
    · have hcp : ¬(a.username = u) := fun he => hc (by simp [he])
      simp [Option.map_some', Option.getD_some, hcp]

/-! ### Concrete witnesses -/

/-- Concrete run of C1: a fresh account accepts and binds a fresh
device id. -/
theorem login_first_use_binds_witness :
    (login [⟨"alice", "HA", none⟩] "alice" "HA" "dev1").1 = true :=
  (login_first_use_binds [⟨"alice", "HA", none⟩] "alice" "HA" "dev1"
    ⟨"alice", "HA", none⟩ (by simp [usernamesNodup]) (by simp) rfl rfl rfl
    (by intro b hb hne; simp at hb; exact absurd hb hne)).1

/-- Concrete run of C2: a bound account presenting a different device
id is rejected without mutation. -/
theorem login_bound_is_comparison_witness :
    ((login [⟨"alice", "HA", some "D0"⟩] "alice" "HA" "D1").1 = true ↔
      ("D1" : String) = "D0") ∧
    (login [⟨"alice", "HA", some "D0"⟩] "alice" "HA" "D1").2 =
      [⟨"alice", "HA", some "D0"⟩] :=
  login_bound_is_comparison _ "alice" "HA" "D1" "D0" ⟨"alice", "HA", some "D0"⟩
    (by simp [usernamesNodup]) (by simp) rfl rfl rfl

/-- Concrete run of C3: an unbound account presenting another account's
device id is rejected without mutation. -/
theorem login_rejects_foreign_device_witness :
    (login [⟨"alice", "HA", some "D0"⟩, ⟨"bob", "HB", none⟩] "bob" "HB"
      "D0").1 = false ∧
    (login [⟨"alice", "HA", some "D0"⟩, ⟨"bob", "HB", none⟩] "bob" "HB"
      "D0").2 = [⟨"alice", "HA", some "D0"⟩, ⟨"bob", "HB", none⟩] :=
  login_rejects_foreign_device
    [⟨"alice", "HA", some "D0"⟩, ⟨"bob", "HB", none⟩] "D0"
    ⟨"alice", "HA", some "D0"⟩ ⟨"bob", "HB", none⟩
    (by simp [usernamesNodup]) (by decide) (by simp) (by simp) rfl rfl

/-- Concrete run of C4: device uniqueness survives a binding login. -/
theorem deviceUnique_invariant_witness :
    List.countP (fun a => a.machineId == some "d1")
      (login [⟨"alice", "HA", none⟩] "alice" "HA" "d1").2 ≤ 1 :=
  deviceUnique_invariant.2.1 [⟨"alice", "HA", none⟩] "alice" "HA" "d1"
    (by simp [usernamesNodup]) (fun d => by show 0 ≤ 1; decide) "d1"

/-- Concrete run of C5: a login that binds one account leaves another
account's bound device id in place. -/
theorem login_never_rebinds_witness :
    (⟨"bob", "HB", some "D0"⟩ : Account).machineId = some "D0" :=
  login_never_rebinds [⟨"alice", "HA", none⟩, ⟨"bob", "HB", some "D0"⟩]
    "alice" "HA" "D1" (by simp [usernamesNodup])
    ⟨"bob", "HB", some "D0"⟩ (by simp) "D0" rfl
    ⟨"bob", "HB", some "D0"⟩ (by decide) rfl

/-- Concrete run of C6: an unknown username and a known username with a
wrong password produce the same rejection response. -/
theorem index_reject_uniform_witness :
    index [⟨"alice", "HA", none⟩] (fun _ => "HW") "bob" "pw" "d1" =
      (("Unauthorized", 401), [⟨"alice", "HA", none⟩]) ∧
    (index [⟨"alice", "HA", none⟩] (fun _ => "HW") "bob" "pw" "d1").1 =
      (index [⟨"alice", "HA", none⟩] (fun _ => "HW") "alice" "pw2" "d2").1 :=
  ⟨(index_reject_uniform [⟨"alice", "HA", none⟩] (fun _ => "HW")).1
      "bob" "pw" "d1" (by decide),
   (index_reject_uniform [⟨"alice", "HA", none⟩] (fun _ => "HW")).2
      "bob" "pw" "d1" "alice" "pw2" "d2" (by decide) (by decide)⟩

/-- Concrete run of C7: a rejected login (wrong device) leaves the
store unchanged. -/
theorem login_reject_leaves_store_witness :
    (login [⟨"alice", "HA", some "D0"⟩] "alice" "HA" "D1").2 =
      [⟨"alice", "HA", some "D0"⟩] :=
  login_reject_leaves_store _ "alice" "HA" "D1" (by decide)

/-- Concrete run of the amended C9: duplicate insert errors, while
update and delete of a missing username succeed silently. -/
theorem provisioning_error_surface_witness :
    add_user [⟨"alice", "HA", none⟩] (fun _ => "HX") "alice" "p" =
      Except.error "UNIQUE constraint failed: users.username" ∧
    update_password [⟨"alice", "HA", none⟩] (fun _ => "HX") "bob" "x" =
      Except.ok [⟨"alice", "HA", none⟩] ∧
    delete_user [⟨"alice", "HA", none⟩] "bob" =
      Except.ok [⟨"alice", "HA", none⟩] :=
  ⟨provisioning_error_surface.1 _ _ _ "p" ⟨⟨"alice", "HA", none⟩, by simp, rfl⟩,
   provisioning_error_surface.2.1 _ _ _ "x" (by decide),
   provisioning_error_surface.2.2 _ _ (by decide)⟩

/-- Concrete run of C10: updating alice's password leaves bob's row and
alice's machine id untouched. -/
theorem update_password_frame_witness :
    ([⟨"alice", "NEW", some "m1"⟩, ⟨"bob", "HB", none⟩] : Store).getD 1
        blankAccount =
      ([⟨"alice", "HA", some "m1"⟩, ⟨"bob", "HB", none⟩] : Store).getD 1
        blankAccount ∧
    (([⟨"alice", "NEW", some "m1"⟩, ⟨"bob", "HB", none⟩] : Store).getD 0
        blankAccount).machineId =
      (([⟨"alice", "HA", some "m1"⟩, ⟨"bob", "HB", none⟩] : Store).getD 0
        blankAccount).machineId := by
  have h := update_password_frame
    [⟨"alice", "HA", some "m1"⟩, ⟨"bob", "HB", none⟩] (fun _ => "NEW")
    "alice" "x" [⟨"alice", "NEW", some "m1"⟩, ⟨"bob", "HB", none⟩] rfl
  exact ⟨(h.2 1).2.2 (by decide), (h.2 0).2.1⟩

end Server
